import Mathlib

/-!
Verification of the asynchronous job queue of `jobs.py`
(`AsyncJobQueue`: `submit`, `get`, `remove`, `cancel`, `_process_job`).

Shallow embedding conventions:
* A Python job-record dict becomes the structure `Job`, with the fields the
  code reads and writes (`status`, `payload.locations`, `result.count`,
  `result.locations`, `error`, `completed`, `failure`, `created_at`,
  `updated_at`, `cancel_requested`, `_logged_to_db`).
* The job store `self._jobs : Dict[str, Dict]` becomes an association list
  with unique keys (`JobMap`); `dict.get` is lookup of the (unique) binding,
  `dict.pop(id, None)` removes the binding for that key.
* The opaque `worker_callable` is a parameter `worker : L → WorkerOutcome`:
  for each location it either raises an exception carrying a message, or
  returns a Python value (`none` models Python `None`; a `PyDict` with
  `truthy = false` models an empty dict).  The `proxy` argument the code
  forwards from the payload is absorbed into `worker`.
* Result dicts are abstracted to the three observations the scheduler makes
  of them: truthiness (`if res:` / `if r`), presence of an `"error"` key
  (`"error" not in r`), and the value under that key (`r.get("error", ...)`).
  The screenshot-URL step (lines 176-196) only adds a `screenshot_url` key to
  an already-truthy dict — it cannot change truthiness nor add or remove the
  `"error"` key, so it is the identity in this abstraction.
* Wall-clock timestamps are abstract `Nat` instants passed in by the caller.
* Cancellation: `cancel_requested` is a one-way latch flipped by the
  synchronous `cancel()` while `_process_job` is parked at an `await`.  Code
  between `await` points runs atomically on the event loop, so every
  execution observes the latch at a consistent cut:
    - latch already set when the worker claims the job (the task-creation
      loop, lines 160-166, runs atomically before the first `await task`),
      modeled by `cancel_requested = true` in the incoming record; or
    - latch set after `k` collection iterations (lines 169-202) have
      completed and before the final guard (line 204), modeled by
      `CancelTiming.afterTasks k` (`k ≥` number of locations: every task was
      collected but the guard still observes the latch); or
    - never set during processing (`CancelTiming.never`): a `cancel()` after
      the guard ran acts on a terminal record and is modeled by composing
      `processJob` with `cancel`.
  In the `afterTasks` cut the tasks past the cut observe the latch in their
  own first check (line 146) and return `None` without invoking the worker;
  interleavings in which some of those task bodies ran before the cancel
  differ only in the `failure` counter of a canceled job, never in its
  status, and the theorems about canceled jobs below claim only the status.
-/

/-- `JobStatusEnum` of jobs.py. -/
inductive JobStatusEnum where
  | canceled
  | pending
  | running
  | failed
  | done
deriving DecidableEq, Repr

namespace JobStatusEnum

/-- The terminal statuses, exactly the tuple tested by `cancel` (lines 104-108). -/
def isTerminal : JobStatusEnum → Bool
  | done => true
  | failed => true
  | canceled => true
  | _ => false

end JobStatusEnum

/-- Abstraction of a Python dict as observed by the scheduler: its
truthiness, whether it has an `"error"` key, and that key's value. -/
structure PyDict where
  truthy : Bool
  hasError : Bool
  errVal : String
deriving DecidableEq, Repr

/-- `r.get("error", "Unknown error")` (line 213). -/
def PyDict.getError (d : PyDict) : String :=
  if d.hasError then d.errVal else "Unknown error"

/-- A Python value that is a dict or `None`; `none` is Python `None`. -/
abbrev PyVal := Option PyDict

/-- `if res:` / `if r` — Python truthiness of a dict-or-None value. -/
def pyTruthy : PyVal → Bool
  | none => false
  | some d => d.truthy

/-- What one call of the opaque `worker_callable` does for a given location:
raise an exception with message `msg`, or return a value. -/
inductive WorkerOutcome where
  | raises (msg : String)
  | returns (val : PyVal)
deriving DecidableEq, Repr

/-- A job record (the dict built by `submit`, lines 75-86), parametric in the
type `L` of location payload entries. -/
structure Job (L : Type) where
  status : JobStatusEnum
  payload : List L
  resultCount : Nat
  resultLocations : List PyDict
  error : Option String
  completed : Nat
  failure : Nat
  createdAt : Nat
  updatedAt : Nat
  cancelRequested : Bool
  loggedToDb : Bool
deriving DecidableEq, Repr

/-- The record `submit` creates (lines 75-86): `Pending`, empty result,
zeroed counters, cancellation latch clear. -/
def Job.fresh {L : Type} (payload : List L) (now : Nat) : Job L :=
  { status := JobStatusEnum.pending
    payload := payload
    resultCount := 0
    resultLocations := []
    error := none
    completed := 0
    failure := 0
    createdAt := now
    updatedAt := now
    cancelRequested := false
    loggedToDb := false }

/-- The job store `self._jobs`: an association list with unique keys. -/
abbrev JobMap (L : Type) := List (String × Job L)

namespace AsyncJobQueue

variable {L : Type}

/-- `get` (lines 91-93): `self._jobs.get(job_id)` — lookup of the unique
binding for the key. -/
def get (m : JobMap L) (jobId : String) : Option (Job L) :=
  match m with
  | [] => none
  | p :: m => if p.1 = jobId then some p.2 else get m jobId

/-- `remove` (lines 95-97): `self._jobs.pop(job_id, None)` — drops the
binding for `jobId` if present, no error if absent. -/
def remove (m : JobMap L) (jobId : String) : JobMap L :=
  match m with
  | [] => []
  | p :: m =>
      if p.1 = jobId then remove m jobId else p :: remove m jobId

/-- In-place update of the binding for a key (the Python code mutates the
job dict stored in `self._jobs`). -/
def setJob (m : JobMap L) (jobId : String) (j : Job L) : JobMap L :=
  match m with
  | [] => []
  | p :: m =>
      if p.1 = jobId then (p.1, j) :: setJob m jobId j
      else p :: setJob m jobId j

/-- `submit` (lines 67-89): insert a fresh `Pending` record under a key not
already in the map (the ids are generated fresh), and enqueue the id. -/
def submit (m : JobMap L) (jobId : String) (payload : List L) (now : Nat) :
    JobMap L :=
  (jobId, Job.fresh payload now) :: m

/-- `cancel` (lines 99-114): absent id → `None`; terminal job → returned
unchanged; otherwise set the latch, force `Canceled`, refresh `updated_at`. -/
def cancel (m : JobMap L) (jobId : String) (now : Nat) :
    Option (Job L) × JobMap L :=
  match get m jobId with
  | none => (none, m)
  | some job =>
    if job.status.isTerminal then
      (some job, m)
    else
      let job' := { job with
        cancelRequested := true
        status := JobStatusEnum.canceled
        updatedAt := now }
      (some job', setJob m jobId job')

/-- One `process_location` task body (lines 145-158), cancellation not yet
observed: a worker exception is caught and replaced by a truthy
`{"error": "Location analysis failed: " + str(e)}` dict; a normal return is
passed through. -/
def taskResult (worker : L → WorkerOutcome) (loc : L) : PyVal :=
  match worker loc with
  | WorkerOutcome.raises msg =>
      some { truthy := true, hasError := true
             errVal := "Location analysis failed: " ++ msg }
  | WorkerOutcome.returns v => v

/-- Whether the task for `loc` increments `failure` (line 155): exactly when
the worker raises. -/
def isFailure (worker : L → WorkerOutcome) (loc : L) : Bool :=
  match worker loc with
  | WorkerOutcome.raises _ => true
  | WorkerOutcome.returns _ => false

/-- Whether the worker returns a falsy Python value for `loc` without
raising: `None`, or an empty (non-truthy) dict.  Such a task result fails
the `if res:` check (line 175) so no slot is written, yet it increments
neither `failure` nor the error list. -/
def isFalsy (worker : L → WorkerOutcome) (loc : L) : Bool :=
  match worker loc with
  | WorkerOutcome.raises _ => false
  | WorkerOutcome.returns none => true
  | WorkerOutcome.returns (some d) => !d.truthy

/-- When the latch is observed during a run of `_process_job` (see the header
comment): never, or after `k` collection iterations and before the final
guard at line 204. -/
inductive CancelTiming where
  | never
  | afterTasks (k : Nat)
deriving DecidableEq, Repr

/-- Slot written into `results` by the collection loop (lines 169-202): the
task's value if truthy (after the screenshot-URL step, identity here),
otherwise the preallocated `None` (line 139). -/
def slotOf (worker : L → WorkerOutcome) (loc : L) : PyVal :=
  let res := taskResult worker loc
  if pyTruthy res then res else none

/-- `[r for r in results if r and "error" not in r]` (lines 205-207). -/
def okFilter : PyVal → Option PyDict
  | some d => if d.truthy && !d.hasError then some d else none
  | none => none

/-- `[r.get("error", "Unknown error") for r in results if r and "error" in r]`
(lines 212-216). -/
def errFilter : PyVal → Option String
  | some d => if d.truthy && d.hasError then some d.getError else none
  | none => none

/-- The job-level failure summary (lines 217-219):
`f"All {n} location(s) failed. Errors: {'; '.join(error_messages[:3])}"`. -/
def allFailedMsg (n : Nat) (msgs : List String) : String :=
  "All " ++ toString n ++ " location(s) failed. Errors: "
    ++ String.intercalate "; " (msgs.take 3)

/-- `_process_job` (lines 129-231) on a present record.  Returns the final
record together with the list of payload entries actually passed to
`worker_callable`, in invocation order.

Trace of the code: set `Running` and refresh `updated_at` (135-136);
truncate to the first 20 locations (138); if the latch is already set the
task-creation loop breaks before creating any task (163-164), the collection
loop is empty, the guard at 204 is false, and only the `finally` timestamp
refresh runs — the record is left `Running`.  Otherwise all tasks are
created; the first `k` (all of them when the timing is `never`) run and are
collected: `failure` is incremented per raising worker (155), the slot is
written when the value is truthy (175-197), `completed` is incremented once
per collected task (202).  Tasks past a cancellation cut observe the latch
(146 / 170) and neither invoke the worker nor bump the counters.  If the
latch was observed, `cancel` has set the record `Canceled` (112) and the
guard (204) leaves status and result untouched; otherwise the result list
and count are written (205-208), and status becomes `Failed` with the
summary message when the location count is nonzero and equals `failure`
(211-220), else `Done` (222).  The outer `except` (224-228), which would set
`Failed`, is unreachable: every worker exception is caught at line 154 and
the remaining body is pure bookkeeping.  `finally` refreshes `updated_at`. -/
def processJob (worker : L → WorkerOutcome) (ct : CancelTiming) (now : Nat)
    (job : Job L) : Job L × List L :=
  let job := { job with status := JobStatusEnum.running, updatedAt := now }
  let locations := job.payload.take 20
  if job.cancelRequested then
    (job, [])
  else
    let processed := match ct with
      | CancelTiming.never => locations
      | CancelTiming.afterTasks k => locations.take k
    let failure := job.failure + processed.countP (fun l => isFailure worker l)
    let completed := job.completed + processed.length
    let slots : List PyVal := processed.map (fun l => slotOf worker l)
    match ct with
    | CancelTiming.afterTasks _ =>
        ({ job with
            status := JobStatusEnum.canceled
            cancelRequested := true
            failure := failure
            completed := completed
            updatedAt := now }, processed)
    | CancelTiming.never =>
        let okLocs := slots.filterMap okFilter
        let errMsgs := slots.filterMap errFilter
        if 0 < locations.length && failure == locations.length then
          ({ job with
              status := JobStatusEnum.failed
              resultLocations := okLocs
              resultCount := okLocs.length
              error := some (allFailedMsg locations.length errMsgs)
              failure := failure
              completed := completed
              updatedAt := now }, processed)
        else
          ({ job with
              status := JobStatusEnum.done
              resultLocations := okLocs
              resultCount := okLocs.length
              failure := failure
              completed := completed
              updatedAt := now }, processed)

end AsyncJobQueue

/-! ## Store-level lemmas -/

namespace AsyncJobQueue

variable {L : Type}

lemma get_remove_self (m : JobMap L) (id : String) :
    get (remove m id) id = none := by
  induction m with
  | nil => rfl
  | cons p m ih =>
      by_cases h : p.1 = id
      · simpa [remove, h] using ih
      · simpa [remove, get, h] using ih

lemma remove_remove (m : JobMap L) (id : String) :
    remove (remove m id) id = remove m id := by
  induction m with
  | nil => rfl
  | cons p m ih =>
      by_cases h : p.1 = id
      · simpa [remove, h] using ih
      · simpa [remove, h] using ih

lemma remove_of_get_none (m : JobMap L) (id : String)
    (h : get m id = none) : remove m id = m := by
  induction m with
  | nil => rfl
  | cons p m ih =>
      by_cases hp : p.1 = id
      · simp [get, hp] at h
      · simp [get, hp] at h
        simp [remove, hp, ih h]

lemma get_of_not_mem (m : JobMap L) (id : String)
    (h : ∀ p ∈ m, p.1 ≠ id) : get m id = none := by
  induction m with
  | nil => rfl
  | cons p m ih =>
      have hp : p.1 ≠ id := h p (by simp)
      simp [get, hp]
      exact ih (fun q hq => h q (by simp [hq]))

lemma get_setJob_self (m : JobMap L) (id : String) (j' : Job L) :
    get (setJob m id j') id = (get m id).map (fun _ => j') := by
  induction m with
  | nil => rfl
  | cons p m ih =>
      by_cases h : p.1 = id
      · simp [setJob, get, h]
      · simpa [setJob, get, h] using ih

end AsyncJobQueue

open AsyncJobQueue

/-- **C7** — `cancel(jobId)` returns absent when the id is unknown; when the
job's status is already terminal (`Done`, `Failed` or `Canceled`) it returns
the record with every field unchanged and leaves the store untouched;
otherwise it sets `cancel_requested = true`, sets `status = Canceled`
immediately, refreshes `updated_at`, and returns the (stored) record. -/
theorem cancel_spec {L : Type} (m : JobMap L) (id : String) (now : Nat) :
    (get m id = none → cancel m id now = (none, m)) ∧
    (∀ j, get m id = some j → j.status.isTerminal = true →
      cancel m id now = (some j, m)) ∧
    (∀ j, get m id = some j → j.status.isTerminal = false →
      cancel m id now =
        (some { j with cancelRequested := true
                       status := JobStatusEnum.canceled
                       updatedAt := now },
         setJob m id { j with cancelRequested := true
                              status := JobStatusEnum.canceled
                              updatedAt := now }) ∧
      get (cancel m id now).2 id =
        some { j with cancelRequested := true
                      status := JobStatusEnum.canceled
                      updatedAt := now }) := by
  refine ⟨fun h => ?_, fun j hj ht => ?_, fun j hj ht => ?_⟩
  · simp [cancel, h]
  · simp [cancel, hj, ht]
  · have hc : cancel m id now =
        (some { j with cancelRequested := true
                       status := JobStatusEnum.canceled
                       updatedAt := now },
         setJob m id { j with cancelRequested := true
                              status := JobStatusEnum.canceled
                              updatedAt := now }) := by
      simp [cancel, hj, ht]
    refine ⟨hc, ?_⟩
    rw [hc]
    simp [get_setJob_self, hj]

/-- **C7 witness** — concrete store with a pending job `"a"`, a done job
`"b"`, and no job `"c"`: cancel on `"c"` is absent, cancel on `"b"` returns
it unchanged, cancel on `"a"` flips it to `Canceled` with the latch set. -/
theorem cancel_spec_witness :
    (cancel [("a", Job.fresh [0] 0),
             ("b", { Job.fresh [0] 0 with status := JobStatusEnum.done })]
       "c" 7 =
      (none, [("a", Job.fresh [0] 0),
              ("b", { Job.fresh [0] 0 with status := JobStatusEnum.done })])) ∧
    (cancel [("a", Job.fresh [0] 0),
             ("b", { Job.fresh [0] 0 with status := JobStatusEnum.done })]
       "b" 7 =
      (some { Job.fresh [0] 0 with status := JobStatusEnum.done },
       [("a", Job.fresh [0] 0),
        ("b", { Job.fresh [0] 0 with status := JobStatusEnum.done })])) ∧
    (cancel [("a", Job.fresh [0] 0),
             ("b", { Job.fresh [0] 0 with status := JobStatusEnum.done })]
       "a" 7).1 =
      some { Job.fresh [0] 0 with cancelRequested := true
                                  status := JobStatusEnum.canceled
                                  updatedAt := 7 } := by
  refine ⟨(cancel_spec _ "c" 7).1 (by decide), ?_, ?_⟩
  · exact (cancel_spec _ "b" 7).2.1 _ (by decide) (by decide)
  · exact congrArg Prod.fst
      (((cancel_spec _ "a" 7).2.2 _ (by decide) (by decide)).1)

/-- **C9** — `remove` is idempotent and total: removing an absent id is a
no-op, a second `remove` of the same id is a no-op, `get` after `remove` on
the same id returns absent regardless of prior state, and `get` on an id
bound nowhere in the store returns absent. -/
theorem remove_get_spec {L : Type} (m : JobMap L) (id : String) :
    get (remove m id) id = none ∧
    remove (remove m id) id = remove m id ∧
    (get m id = none → remove m id = m) ∧
    ((∀ p ∈ m, p.1 ≠ id) → get m id = none) :=
  ⟨get_remove_self m id, remove_remove m id,
   remove_of_get_none m id, get_of_not_mem m id⟩

/-- **C9 witness** — on a concrete one-job store, removing the unknown id
`"b"` is a no-op, `get` after removing `"a"` is absent, and a second removal
of `"a"` changes nothing. -/
theorem remove_get_spec_witness :
    get (remove [("a", Job.fresh [0] 0)] "a") "a" = none ∧
    remove (remove [("a", Job.fresh [0] 0)] "a") "a" =
      remove [("a", Job.fresh [0] 0)] "a" ∧
    remove [("a", Job.fresh [0] 0)] "b" = [("a", Job.fresh [0] 0)] ∧
    get [("a", Job.fresh [0] 0)] "b" = none := by
  refine ⟨(remove_get_spec [("a", Job.fresh [0] 0)] "a").1,
          (remove_get_spec [("a", Job.fresh [0] 0)] "a").2.1,
          (remove_get_spec [("a", Job.fresh [0] 0)] "b").2.2.1 ?_,
          (remove_get_spec [("a", Job.fresh [0] 0)] "b").2.2.2 ?_⟩
  · decide
  · decide

/-! ## Projections of `_process_job` on a fresh, never-canceled job -/

namespace AsyncJobQueue

variable {L : Type}

lemma processJob_fresh_never_snd (worker : L → WorkerOutcome)
    (payload : List L) (t0 now : Nat) :
    (processJob worker CancelTiming.never now (Job.fresh payload t0)).2 =
      payload.take 20 := by
  simp [processJob, Job.fresh]
  split <;> simp_all

lemma processJob_fresh_never_completed (worker : L → WorkerOutcome)
    (payload : List L) (t0 now : Nat) :
    (processJob worker CancelTiming.never now (Job.fresh payload t0)).1.completed =
      (payload.take 20).length := by
  simp [processJob, Job.fresh]
  split <;> simp_all

lemma processJob_fresh_never_failure (worker : L → WorkerOutcome)
    (payload : List L) (t0 now : Nat) :
    (processJob worker CancelTiming.never now (Job.fresh payload t0)).1.failure =
      (payload.take 20).countP (fun l => isFailure worker l) := by
  simp [processJob, Job.fresh]
  split <;> simp_all

lemma processJob_fresh_never_resultCount (worker : L → WorkerOutcome)
    (payload : List L) (t0 now : Nat) :
    (processJob worker CancelTiming.never now (Job.fresh payload t0)).1.resultCount =
      (((payload.take 20).map (fun l => slotOf worker l)).filterMap okFilter).length := by
  simp [processJob, Job.fresh]
  split <;> simp_all

lemma processJob_fresh_never_status (worker : L → WorkerOutcome)
    (payload : List L) (t0 now : Nat) :
    (processJob worker CancelTiming.never now (Job.fresh payload t0)).1.status =
      (if 0 < (payload.take 20).length &&
          (payload.take 20).countP (fun l => isFailure worker l) ==
            (payload.take 20).length
       then JobStatusEnum.failed else JobStatusEnum.done) := by
  simp [processJob, Job.fresh]
  split <;> simp_all

lemma processJob_fresh_never_error (worker : L → WorkerOutcome)
    (payload : List L) (t0 now : Nat) :
    (processJob worker CancelTiming.never now (Job.fresh payload t0)).1.error =
      (if 0 < (payload.take 20).length &&
          (payload.take 20).countP (fun l => isFailure worker l) ==
            (payload.take 20).length
       then some (allFailedMsg (payload.take 20).length
              (((payload.take 20).map (fun l => slotOf worker l)).filterMap errFilter))
       else none) := by
  simp [processJob, Job.fresh]
  split <;> simp_all

end AsyncJobQueue

/-- **C6** — a job submitted with zero locations, never canceled, completes
as `Done` (not `Failed`) with `completed = 0`, `failure = 0` and
`result.count = 0`. -/
theorem processJob_empty_payload_done {L : Type} (worker : L → WorkerOutcome)
    (t0 now : Nat) :
    (processJob worker CancelTiming.never now (Job.fresh ([] : List L) t0)).1.status =
        JobStatusEnum.done ∧
    (processJob worker CancelTiming.never now (Job.fresh ([] : List L) t0)).1.completed = 0 ∧
    (processJob worker CancelTiming.never now (Job.fresh ([] : List L) t0)).1.failure = 0 ∧
    (processJob worker CancelTiming.never now (Job.fresh ([] : List L) t0)).1.resultCount = 0 :=
  ⟨rfl, rfl, rfl, rfl⟩

/-- **C2** — a worker that runs `_process_job` to completion on a job whose
cancellation latch is clear always leaves it in a terminal status, `Done` or
`Failed`, for every worker callable (including ones raising on every
location) and every starting record: no non-canceled job is left `Running`
after the controller returns. -/
theorem processJob_reaches_terminal {L : Type} (worker : L → WorkerOutcome)
    (job : Job L) (now : Nat) (h : job.cancelRequested = false) :
    (processJob worker CancelTiming.never now job).1.status = JobStatusEnum.done ∨
    (processJob worker CancelTiming.never now job).1.status = JobStatusEnum.failed := by
  unfold processJob
  simp [h]
  split
  · exact Or.inr rfl
  · exact Or.inl rfl

/-- **C2 witness** — a concrete job with one location whose worker raises
still reaches a terminal status. -/
theorem processJob_reaches_terminal_witness :
    (processJob (fun _ : Nat => WorkerOutcome.raises "boom")
        CancelTiming.never 3 (Job.fresh [0] 0)).1.status = JobStatusEnum.done ∨
    (processJob (fun _ : Nat => WorkerOutcome.raises "boom")
        CancelTiming.never 3 (Job.fresh [0] 0)).1.status = JobStatusEnum.failed :=
  processJob_reaches_terminal (fun _ : Nat => WorkerOutcome.raises "boom")
    (Job.fresh [0] 0) 3 rfl

/-- **C8** — the controller passes exactly the first `min(M, 20)` payload
entries, in submission order, to the worker callable (entries past the 20th
are never invoked), and absent cancellation the final `completed` counter
equals `min(M, 20)`. -/
theorem processJob_truncates_to_20 {L : Type} (worker : L → WorkerOutcome)
    (payload : List L) (t0 now : Nat) :
    (processJob worker CancelTiming.never now (Job.fresh payload t0)).2 =
      payload.take 20 ∧
    (processJob worker CancelTiming.never now (Job.fresh payload t0)).1.completed =
      min payload.length 20 := by
  refine ⟨processJob_fresh_never_snd worker payload t0 now, ?_⟩
  rw [processJob_fresh_never_completed worker payload t0 now]
  simp [List.length_take, Nat.min_comm]

/-- **C1 counterexample** — the claim "a worker claiming a job from the
admission queue after `cancel()` has already set the job to `Canceled` must
not move the status back to `Running`" is false on the code: submit a job,
cancel it while still `Pending` (status becomes the terminal `Canceled`),
then let a worker claim it — `_process_job` line 135 unconditionally sets
`status = Running`, and the guard at line 204 skips the terminal assignment
because the latch is set, so the job ends `Running`, not `Canceled`. -/
theorem status_forward_counterexample :
    ((cancel (submit ([] : JobMap Nat) "j" [0] 0) "j" 5).1.getD
        (Job.fresh [] 0)).status = JobStatusEnum.canceled ∧
    JobStatusEnum.isTerminal JobStatusEnum.canceled = true ∧
    (processJob (fun _ => WorkerOutcome.returns (some ⟨true, false, ""⟩))
        CancelTiming.never 7
        ((cancel (submit ([] : JobMap Nat) "j" [0] 0) "j" 5).1.getD
          (Job.fresh [] 0))).1.status = JobStatusEnum.running ∧
    JobStatusEnum.running ≠ JobStatusEnum.canceled :=
  ⟨rfl, rfl, rfl, by decide⟩

/-- **C1 (amended)** — what does hold: whenever cancellation was requested
(latch set before the worker claimed the job, or observed at any collection
cut before the final guard), the controller never sets `Done` or `Failed` —
it never overwrites `Canceled` with `Done`/`Failed` — and `cancel` returns a
job already in a terminal status unchanged, so `Done`/`Failed`/`Canceled`
are never exited by `cancel`; however, a worker claiming a job whose latch
was set before the claim leaves it in `Running` (the regression exhibited by
the counterexample). -/
theorem status_forward_amended {L : Type} (worker : L → WorkerOutcome)
    (ct : CancelTiming) (now : Nat) (job : Job L) (m : JobMap L) (id : String)
    (hc : job.cancelRequested = true ∨ ct ≠ CancelTiming.never) :
    (processJob worker ct now job).1.status ≠ JobStatusEnum.done ∧
    (processJob worker ct now job).1.status ≠ JobStatusEnum.failed ∧
    (job.cancelRequested = true →
      (processJob worker ct now job).1.status = JobStatusEnum.running) ∧
    (∀ j, get m id = some j → j.status.isTerminal = true →
      cancel m id now = (some j, m)) := by
  have hcancel : ∀ j : Job L, get m id = some j → j.status.isTerminal = true →
      cancel m id now = (some j, m) := by
    intro j hj ht
    simp [cancel, hj, ht]
  cases hjc : job.cancelRequested with
  | true =>
      have hrun : (processJob worker ct now job).1.status =
          JobStatusEnum.running := by
        simp [processJob, hjc]
      refine ⟨?_, ?_, fun _ => hrun, hcancel⟩
      · rw [hrun]; decide
      · rw [hrun]; decide
  | false =>
      rcases hc with hc | hc
      · rw [hjc] at hc; exact absurd hc (by decide)
      · cases hct : ct with
        | never => exact absurd hct hc
        | afterTasks k =>
            subst hct
            have hcanc : (processJob worker (CancelTiming.afterTasks k) now
                job).1.status = JobStatusEnum.canceled := by
              simp [processJob, hjc]
            refine ⟨?_, ?_, ?_, hcancel⟩
            · rw [hcanc]; decide
            · rw [hcanc]; decide
            · exact fun h => absurd h (by decide)

/-- **C1 witness** — concrete instances of the amended claim: a canceled job
claimed by a worker ends `Running` (never `Done`/`Failed`), and `cancel` on
a concrete `Done` job returns it unchanged. -/
theorem status_forward_amended_witness :
    (processJob (fun _ : Nat => WorkerOutcome.returns none) CancelTiming.never 3
        { Job.fresh [0] 0 with status := JobStatusEnum.canceled,
                               cancelRequested := true }).1.status ≠
      JobStatusEnum.done ∧
    (processJob (fun _ : Nat => WorkerOutcome.returns none) CancelTiming.never 3
        { Job.fresh [0] 0 with status := JobStatusEnum.canceled,
                               cancelRequested := true }).1.status ≠
      JobStatusEnum.failed ∧
    (processJob (fun _ : Nat => WorkerOutcome.returns none) CancelTiming.never 3
        { Job.fresh [0] 0 with status := JobStatusEnum.canceled,
                               cancelRequested := true }).1.status =
      JobStatusEnum.running ∧
    cancel [("b", { Job.fresh ([0] : List Nat) 0 with
                     status := JobStatusEnum.done })] "b" 3 =
      (some { Job.fresh ([0] : List Nat) 0 with status := JobStatusEnum.done },
       [("b", { Job.fresh ([0] : List Nat) 0 with
                 status := JobStatusEnum.done })]) := by
  have T := status_forward_amended (fun _ : Nat => WorkerOutcome.returns none)
    CancelTiming.never 3
    { Job.fresh [0] 0 with status := JobStatusEnum.canceled,
                           cancelRequested := true }
    [("b", { Job.fresh ([0] : List Nat) 0 with status := JobStatusEnum.done })]
    "b" (Or.inl rfl)
  exact ⟨T.1, T.2.1, T.2.2.1 rfl, T.2.2.2 _ rfl rfl⟩

/-! ## Aggregation lemmas over the per-location outcomes -/

namespace AsyncJobQueue

variable {L : Type}

lemma slots_all_raise (worker : L → WorkerOutcome) (msgs : L → String)
    (payload : List L)
    (hw : ∀ l ∈ payload, worker l = WorkerOutcome.raises (msgs l)) :
    (payload.map (fun l => slotOf worker l)).filterMap errFilter =
      payload.map (fun l => "Location analysis failed: " ++ msgs l) ∧
    (payload.map (fun l => slotOf worker l)).filterMap okFilter =
      ([] : List PyDict) ∧
    payload.countP (fun l => isFailure worker l) = payload.length := by
  induction payload with
  | nil => simp
  | cons a tl ih =>
      have ha := hw a (by simp)
      have ih' := ih (fun l hl => hw l (by simp [hl]))
      have herr : errFilter (slotOf worker a) =
          some ("Location analysis failed: " ++ msgs a) := by
        simp [slotOf, taskResult, ha, pyTruthy, errFilter, PyDict.getError]
      have hokf : okFilter (slotOf worker a) = none := by
        simp [slotOf, taskResult, ha, pyTruthy, okFilter]
      have hfail : isFailure worker a = true := by simp [isFailure, ha]
      refine ⟨?_, ?_, ?_⟩
      · simp only [List.map_cons, List.filterMap_cons, herr]
        rw [ih'.1]
      · simp only [List.map_cons, List.filterMap_cons, hokf]
        exact ih'.2.1
      · simp [List.countP_cons, hfail, ih'.2.2]

lemma slots_all_ok (worker : L → WorkerOutcome) (res : L → PyDict)
    (payload : List L)
    (hw : ∀ l ∈ payload, worker l = WorkerOutcome.returns (some (res l)) ∧
      (res l).truthy = true ∧ (res l).hasError = false) :
    (payload.map (fun l => slotOf worker l)).filterMap okFilter =
      payload.map res ∧
    payload.countP (fun l => isFailure worker l) = 0 := by
  induction payload with
  | nil => simp
  | cons a tl ih =>
      obtain ⟨ha, hat, hae⟩ := hw a (by simp)
      have ih' := ih (fun l hl => hw l (by simp [hl]))
      have hokf : okFilter (slotOf worker a) = some (res a) := by
        simp [slotOf, taskResult, ha, hat, hae, okFilter, pyTruthy]
      have hfail : isFailure worker a = false := by simp [isFailure, ha]
      refine ⟨?_, ?_⟩
      · simp only [List.map_cons, List.filterMap_cons, hokf]
        rw [ih'.1]
      · simp [List.countP_cons, hfail, ih'.2]

end AsyncJobQueue

/-- **C3** — for every job with `N ≥ 1` locations whose worker raises on
every location, with no cancellation: the job finishes `Failed`,
`failure = N`, `result.count = 0`, and `error` is the non-empty summary of
the first 3 individual failure messages. -/
theorem all_locations_fail_spec {L : Type} (worker : L → WorkerOutcome)
    (msgs : L → String) (payload : List L) (t0 now : Nat)
    (hw : ∀ l ∈ payload, worker l = WorkerOutcome.raises (msgs l))
    (h1 : 1 ≤ payload.length) (h20 : payload.length ≤ 20) :
    (processJob worker CancelTiming.never now (Job.fresh payload t0)).1.status =
        JobStatusEnum.failed ∧
    (processJob worker CancelTiming.never now (Job.fresh payload t0)).1.failure =
        payload.length ∧
    (processJob worker CancelTiming.never now (Job.fresh payload t0)).1.resultCount =
        0 ∧
    (processJob worker CancelTiming.never now (Job.fresh payload t0)).1.error =
        some (allFailedMsg payload.length
          (payload.map (fun l => "Location analysis failed: " ++ msgs l))) := by
  obtain ⟨he, hok, hcnt⟩ := slots_all_raise worker msgs payload hw
  have htake : payload.take 20 = payload := List.take_of_length_le h20
  have h0 : 0 < payload.length := h1
  refine ⟨?_, ?_, ?_, ?_⟩
  · rw [processJob_fresh_never_status, htake]
    simp [hcnt, h0]
  · rw [processJob_fresh_never_failure, htake, hcnt]
  · rw [processJob_fresh_never_resultCount, htake, hok]
    rfl
  · rw [processJob_fresh_never_error, htake]
    simp [hcnt, h0, he]

/-- **C3 witness** — two locations, both raising `"boom"`: the job is
`Failed` with `failure = 2`, empty result, and the summary message. -/
theorem all_locations_fail_spec_witness :
    (processJob (fun _ : Nat => WorkerOutcome.raises "boom")
        CancelTiming.never 9 (Job.fresh [0, 1] 0)).1.status =
      JobStatusEnum.failed ∧
    (processJob (fun _ : Nat => WorkerOutcome.raises "boom")
        CancelTiming.never 9 (Job.fresh [0, 1] 0)).1.failure = 2 ∧
    (processJob (fun _ : Nat => WorkerOutcome.raises "boom")
        CancelTiming.never 9 (Job.fresh [0, 1] 0)).1.resultCount = 0 ∧
    (processJob (fun _ : Nat => WorkerOutcome.raises "boom")
        CancelTiming.never 9 (Job.fresh [0, 1] 0)).1.error =
      some (allFailedMsg 2 (([0, 1] : List Nat).map
        (fun _ => "Location analysis failed: " ++ "boom"))) :=
  all_locations_fail_spec (fun _ : Nat => WorkerOutcome.raises "boom")
    (fun _ => "boom") [0, 1] 0 9 (by decide) (by decide) (by decide)

/-- **C4** — for every job with `N` locations (`0 ≤ N ≤ 20`) whose worker
succeeds on every location with a well-formed (truthy, error-free) record,
with no cancellation: the job finishes `Done` with `completed = N`,
`result.count = N` and `failure = 0`. -/
theorem all_locations_succeed_spec {L : Type} (worker : L → WorkerOutcome)
    (res : L → PyDict) (payload : List L) (t0 now : Nat)
    (hw : ∀ l ∈ payload, worker l = WorkerOutcome.returns (some (res l)) ∧
      (res l).truthy = true ∧ (res l).hasError = false)
    (h20 : payload.length ≤ 20) :
    (processJob worker CancelTiming.never now (Job.fresh payload t0)).1.status =
        JobStatusEnum.done ∧
    (processJob worker CancelTiming.never now (Job.fresh payload t0)).1.completed =
        payload.length ∧
    (processJob worker CancelTiming.never now (Job.fresh payload t0)).1.resultCount =
        payload.length ∧
    (processJob worker CancelTiming.never now (Job.fresh payload t0)).1.failure =
        0 := by
  obtain ⟨hok, hcnt⟩ := slots_all_ok worker res payload hw
  have htake : payload.take 20 = payload := List.take_of_length_le h20
  have hguard : ∀ n : Nat, (decide (0 < n) && (0 == n)) = false := by
    intro n; cases n <;> simp
  refine ⟨?_, ?_, ?_, ?_⟩
  · rw [processJob_fresh_never_status, htake]
    simp [hcnt, hguard payload.length]
  · rw [processJob_fresh_never_completed, htake]
  · rw [processJob_fresh_never_resultCount, htake, hok, List.length_map]
  · rw [processJob_fresh_never_failure, htake, hcnt]

/-- **C4 witness** — two locations, both returning a well-formed record:
`Done` with both counters at 2 and no failures. -/
theorem all_locations_succeed_spec_witness :
    (processJob (fun _ : Nat => WorkerOutcome.returns
        (some { truthy := true, hasError := false, errVal := "" }))
        CancelTiming.never 9 (Job.fresh [0, 1] 0)).1.status =
      JobStatusEnum.done ∧
    (processJob (fun _ : Nat => WorkerOutcome.returns
        (some { truthy := true, hasError := false, errVal := "" }))
        CancelTiming.never 9 (Job.fresh [0, 1] 0)).1.completed = 2 ∧
    (processJob (fun _ : Nat => WorkerOutcome.returns
        (some { truthy := true, hasError := false, errVal := "" }))
        CancelTiming.never 9 (Job.fresh [0, 1] 0)).1.resultCount = 2 ∧
    (processJob (fun _ : Nat => WorkerOutcome.returns
        (some { truthy := true, hasError := false, errVal := "" }))
        CancelTiming.never 9 (Job.fresh [0, 1] 0)).1.failure = 0 :=
  all_locations_succeed_spec
    (fun _ : Nat => WorkerOutcome.returns
      (some { truthy := true, hasError := false, errVal := "" }))
    (fun _ => { truthy := true, hasError := false, errVal := "" })
    [0, 1] 0 9 (by decide) (by decide)

namespace AsyncJobQueue

variable {L : Type}

lemma okLen_add_countFail (worker : L → WorkerOutcome) (payload : List L)
    (hw : ∀ l ∈ payload, (∃ msg, worker l = WorkerOutcome.raises msg) ∨
      (∃ d, worker l = WorkerOutcome.returns (some d) ∧ d.truthy = true ∧
        d.hasError = false)) :
    (payload.filterMap (fun l => okFilter (slotOf worker l))).length
      + payload.countP (fun l => isFailure worker l) = payload.length := by
  induction payload with
  | nil => rfl
  | cons a tl ih =>
      have ih' := ih (fun l hl => hw l (by simp [hl]))
      rcases hw a (by simp) with ⟨msg, hm⟩ | ⟨d, hd, ht, he⟩
      · have hokf : okFilter (slotOf worker a) = none := by
          simp [slotOf, taskResult, hm, pyTruthy, okFilter]
        have hfail : isFailure worker a = true := by simp [isFailure, hm]
        simp [List.filterMap_cons, hokf, List.countP_cons, hfail]
        omega
      · have hokf : okFilter (slotOf worker a) = some d := by
          simp [slotOf, taskResult, hd, ht, he, okFilter, pyTruthy]
        have hfail : isFailure worker a = false := by simp [isFailure, hd]
        simp [List.filterMap_cons, hokf, List.countP_cons, hfail]
        omega

lemma okLen_pos (worker : L → WorkerOutcome) (payload : List L)
    (hs : ∃ l, l ∈ payload ∧ ∃ d, worker l = WorkerOutcome.returns (some d) ∧
      d.truthy = true ∧ d.hasError = false) :
    0 < (payload.filterMap (fun l => okFilter (slotOf worker l))).length := by
  obtain ⟨l, hl, d, hd, ht, he⟩ := hs
  have hmem : d ∈ payload.filterMap (fun l => okFilter (slotOf worker l)) :=
    List.mem_filterMap.mpr
      ⟨l, hl, by simp [slotOf, taskResult, hd, ht, he, okFilter, pyTruthy]⟩
  exact List.length_pos_of_mem hmem

lemma okLen_fail_falsy (worker : L → WorkerOutcome) (payload : List L)
    (hw : ∀ l ∈ payload, (∃ msg, worker l = WorkerOutcome.raises msg) ∨
      (∃ d, worker l = WorkerOutcome.returns (some d) ∧ d.truthy = true ∧
        d.hasError = false) ∨
      isFalsy worker l = true) :
    (payload.filterMap (fun l => okFilter (slotOf worker l))).length
      + payload.countP (fun l => isFailure worker l)
      + payload.countP (fun l => isFalsy worker l) = payload.length := by
  induction payload with
  | nil => rfl
  | cons a tl ih =>
      have ih' := ih (fun l hl => hw l (by simp [hl]))
      rcases hw a (by simp) with ⟨msg, hm⟩ | ⟨d, hd, ht, he⟩ | hfal
      · have hokf : okFilter (slotOf worker a) = none := by
          simp [slotOf, taskResult, hm, pyTruthy, okFilter]
        have hfail : isFailure worker a = true := by simp [isFailure, hm]
        have hfveq : isFalsy worker a = false := by simp [isFalsy, hm]
        simp [List.filterMap_cons, hokf, List.countP_cons, hfail, hfveq]
        omega
      · have hokf : okFilter (slotOf worker a) = some d := by
          simp [slotOf, taskResult, hd, ht, he, okFilter, pyTruthy]
        have hfail : isFailure worker a = false := by simp [isFailure, hd]
        have hfveq : isFalsy worker a = false := by simp [isFalsy, hd, ht]
        simp [List.filterMap_cons, hokf, List.countP_cons, hfail, hfveq]
        omega
      · have hokf : okFilter (slotOf worker a) = none := by
          cases hwa : worker a with
          | raises m => simp [isFalsy, hwa] at hfal
          | returns v =>
              cases v with
              | none => simp [slotOf, taskResult, hwa, pyTruthy, okFilter]
              | some d =>
                  have htr : d.truthy = false := by
                    simpa [isFalsy, hwa] using hfal
                  simp [slotOf, taskResult, hwa, pyTruthy, htr, okFilter]
        have hfail : isFailure worker a = false := by
          cases hwa : worker a with
          | raises m => simp [isFalsy, hwa] at hfal
          | returns v => simp [isFailure, hwa]
        simp [List.filterMap_cons, hokf, List.countP_cons, hfail, hfal]
        omega

end AsyncJobQueue

/-- **C5** — for every job mixing at least one well-formed success with at
least one raising location (every location one or the other), with no
cancellation: the job finishes `Done` (partial success is success) with
`result.count = N - failure`, and `failure` is positive. -/
theorem mixed_success_spec {L : Type} (worker : L → WorkerOutcome)
    (payload : List L) (t0 now : Nat)
    (hw : ∀ l ∈ payload, (∃ msg, worker l = WorkerOutcome.raises msg) ∨
      (∃ d, worker l = WorkerOutcome.returns (some d) ∧ d.truthy = true ∧
        d.hasError = false))
    (hs : ∃ l, l ∈ payload ∧ ∃ d, worker l = WorkerOutcome.returns (some d) ∧
      d.truthy = true ∧ d.hasError = false)
    (hf : ∃ l, l ∈ payload ∧ ∃ msg, worker l = WorkerOutcome.raises msg)
    (h20 : payload.length ≤ 20) :
    (processJob worker CancelTiming.never now (Job.fresh payload t0)).1.status =
        JobStatusEnum.done ∧
    (processJob worker CancelTiming.never now (Job.fresh payload t0)).1.resultCount =
      payload.length -
        (processJob worker CancelTiming.never now (Job.fresh payload t0)).1.failure ∧
    0 < (processJob worker CancelTiming.never now (Job.fresh payload t0)).1.failure := by
  have hsum := okLen_add_countFail worker payload hw
  have hpos := okLen_pos worker payload hs
  have hfpos : 0 < payload.countP (fun l => isFailure worker l) := by
    obtain ⟨l, hl, msg, hm⟩ := hf
    exact List.countP_pos_iff.mpr ⟨l, hl, by simp [isFailure, hm]⟩
  have htake : payload.take 20 = payload := List.take_of_length_le h20
  refine ⟨?_, ?_, ?_⟩
  · rw [processJob_fresh_never_status, htake]
    have hne : payload.countP (fun l => isFailure worker l) ≠
        payload.length := by omega
    simp [hne]
  · rw [processJob_fresh_never_resultCount,
      processJob_fresh_never_failure, htake, List.filterMap_map]
    simp only [Function.comp_def]
    omega
  · rw [processJob_fresh_never_failure, htake]
    exact hfpos

/-- **C5 witness** — locations `[0, 1]` where location 0 raises and
location 1 succeeds: the job is `Done` with `result.count = 2 - failure`. -/
theorem mixed_success_spec_witness :
    (processJob
        (fun l : Nat => if l = 0 then WorkerOutcome.raises "x"
          else WorkerOutcome.returns
            (some { truthy := true, hasError := false, errVal := "" }))
        CancelTiming.never 9 (Job.fresh [0, 1] 0)).1.status =
      JobStatusEnum.done ∧
    (processJob
        (fun l : Nat => if l = 0 then WorkerOutcome.raises "x"
          else WorkerOutcome.returns
            (some { truthy := true, hasError := false, errVal := "" }))
        CancelTiming.never 9 (Job.fresh [0, 1] 0)).1.resultCount =
      2 - (processJob
        (fun l : Nat => if l = 0 then WorkerOutcome.raises "x"
          else WorkerOutcome.returns
            (some { truthy := true, hasError := false, errVal := "" }))
        CancelTiming.never 9 (Job.fresh [0, 1] 0)).1.failure ∧
    0 < (processJob
        (fun l : Nat => if l = 0 then WorkerOutcome.raises "x"
          else WorkerOutcome.returns
            (some { truthy := true, hasError := false, errVal := "" }))
        CancelTiming.never 9 (Job.fresh [0, 1] 0)).1.failure := by
  refine mixed_success_spec _ [0, 1] 0 9 ?_ ?_ ?_ (by decide)
  · intro l hl
    simp at hl
    rcases hl with rfl | rfl
    · exact Or.inl ⟨"x", rfl⟩
    · exact Or.inr ⟨{ truthy := true, hasError := false, errVal := "" },
        rfl, rfl, rfl⟩
  · exact ⟨1, by simp, { truthy := true, hasError := false, errVal := "" },
      rfl, rfl, rfl⟩
  · exact ⟨0, by simp, "x", rfl⟩

/-- **C10** — if the worker returns a falsy value (Python `None` or an empty
dict) for at least one location, raising or succeeding well-formed on the
others, with no cancellation: the falsy locations are counted in
`completed` (which still reaches `N`) but neither in `result.locations` nor
in `failure`, so `result.count` is strictly less than `N - failure`, and the
job still ends `Done` (a falsy return never contributes to the all-failed
check). -/
theorem falsy_result_spec {L : Type} (worker : L → WorkerOutcome)
    (payload : List L) (t0 now : Nat)
    (hw : ∀ l ∈ payload, (∃ msg, worker l = WorkerOutcome.raises msg) ∨
      (∃ d, worker l = WorkerOutcome.returns (some d) ∧ d.truthy = true ∧
        d.hasError = false) ∨
      isFalsy worker l = true)
    (hfalsy : ∃ l, l ∈ payload ∧ isFalsy worker l = true)
    (h20 : payload.length ≤ 20) :
    (processJob worker CancelTiming.never now (Job.fresh payload t0)).1.status =
        JobStatusEnum.done ∧
    (processJob worker CancelTiming.never now (Job.fresh payload t0)).1.completed =
        payload.length ∧
    (processJob worker CancelTiming.never now (Job.fresh payload t0)).1.resultCount +
        (processJob worker CancelTiming.never now (Job.fresh payload t0)).1.failure <
      payload.length ∧
    (processJob worker CancelTiming.never now (Job.fresh payload t0)).1.resultCount <
      payload.length -
        (processJob worker CancelTiming.never now (Job.fresh payload t0)).1.failure := by
  have hsum := okLen_fail_falsy worker payload hw
  have hfpos : 0 < payload.countP (fun l => isFalsy worker l) := by
    obtain ⟨l, hl, hfal⟩ := hfalsy
    exact List.countP_pos_iff.mpr ⟨l, hl, hfal⟩
  have htake : payload.take 20 = payload := List.take_of_length_le h20
  refine ⟨?_, ?_, ?_, ?_⟩
  · rw [processJob_fresh_never_status, htake]
    have hne : payload.countP (fun l => isFailure worker l) ≠
        payload.length := by omega
    simp [hne]
  · rw [processJob_fresh_never_completed, htake]
  · rw [processJob_fresh_never_resultCount,
      processJob_fresh_never_failure, htake, List.filterMap_map]
    simp only [Function.comp_def]
    omega
  · rw [processJob_fresh_never_resultCount,
      processJob_fresh_never_failure, htake, List.filterMap_map]
    simp only [Function.comp_def]
    omega

/-- **C10 witness** — locations `[0, 1]` where location 0 returns `None` and
location 1 succeeds: `Done`, `completed = 2`, and `result.count = 1` falls
strictly below `2 - failure = 2`. -/
theorem falsy_result_spec_witness :
    (processJob
        (fun l : Nat => if l = 0 then WorkerOutcome.returns none
          else WorkerOutcome.returns
            (some { truthy := true, hasError := false, errVal := "" }))
        CancelTiming.never 9 (Job.fresh [0, 1] 0)).1.status =
      JobStatusEnum.done ∧
    (processJob
        (fun l : Nat => if l = 0 then WorkerOutcome.returns none
          else WorkerOutcome.returns
            (some { truthy := true, hasError := false, errVal := "" }))
        CancelTiming.never 9 (Job.fresh [0, 1] 0)).1.completed = 2 ∧
    (processJob
        (fun l : Nat => if l = 0 then WorkerOutcome.returns none
          else WorkerOutcome.returns
            (some { truthy := true, hasError := false, errVal := "" }))
        CancelTiming.never 9 (Job.fresh [0, 1] 0)).1.resultCount +
      (processJob
        (fun l : Nat => if l = 0 then WorkerOutcome.returns none
          else WorkerOutcome.returns
            (some { truthy := true, hasError := false, errVal := "" }))
        CancelTiming.never 9 (Job.fresh [0, 1] 0)).1.failure < 2 ∧
    (processJob
        (fun l : Nat => if l = 0 then WorkerOutcome.returns none
          else WorkerOutcome.returns
            (some { truthy := true, hasError := false, errVal := "" }))
        CancelTiming.never 9 (Job.fresh [0, 1] 0)).1.resultCount <
      2 - (processJob
        (fun l : Nat => if l = 0 then WorkerOutcome.returns none
          else WorkerOutcome.returns
            (some { truthy := true, hasError := false, errVal := "" }))
        CancelTiming.never 9 (Job.fresh [0, 1] 0)).1.failure := by
  refine falsy_result_spec _ [0, 1] 0 9 ?_ ?_ (by decide)
  · intro l hl
    simp at hl
    rcases hl with rfl | rfl
    · exact Or.inr (Or.inr rfl)
    · exact Or.inr (Or.inl ⟨{ truthy := true, hasError := false, errVal := "" },
        rfl, rfl, rfl⟩)
  · exact ⟨0, by simp, rfl⟩
